import Mathlib

/-!
Verification of the file materialization and sharing layer (class File in
src/src/file/file.ts) against its natural-language specification.

The byte payloads are modelled as lists of naturals. The class methods are
shallowly embedded as pure functions over an environment of collaborator
oracles (content-addressed store, feed, directory index, account/session,
path utilities). Each method returns the ordered trace of remote calls it
issues together with an Except value holding its result or error. Helper
functions of the repository that are imported by file.ts but whose sources
are not available are modelled from the spec and marked as such in their
doc comments.
-/

/-- Errors raised by the layer, following the taxonomy of section 7 of the
spec: validation errors are raised locally before remote calls, identity
resolution failures come from the account collaborator. -/
inductive FdpError where
  | notAuthenticated
  | invalidPodName
  | invalidPath
  | invalidReference
  | podNotFound
deriving DecidableEq

/-- Modelled from the spec: META_VERSION, the fixed schema tag of the
file-metadata record (imported by file.ts from pod/utils, whose source is
not available). Its concrete value is irrelevant to the claims. -/
def META_VERSION : Nat := 1

/-- FileMetadata record, mirroring the fields constructed at lines 96 to 110
of file.ts and section 3 of the spec. blockSize is an integer because the
source language does not constrain it to be nonnegative. -/
structure FileMetadata where
  version : Nat
  podAddress : String
  podName : String
  filePath : String
  fileName : String
  fileSize : Nat
  blockSize : Int
  contentType : String
  compression : String
  creationTime : Nat
  accessTime : Nat
  modificationTime : Nat
  blocksReference : String
deriving DecidableEq

/-- One block descriptor of the manifest, as pushed in the upload loop of
file.ts (lines 86 to 91). -/
structure BlockDescriptor where
  name : String
  size : Nat
  compressedSize : Nat
  reference : String
deriving DecidableEq

/-- Ordered blocks collection wrapped as in the source type Blocks. -/
structure Blocks where
  blocks : List BlockDescriptor
deriving DecidableEq

/-- Modelled from the spec: FileShareInfo, the payload of the share capsule.
The raw over-the-wire metadata record is represented by FileMetadata itself
since the raw and cooked forms round-trip exactly (section 4.3 of the spec);
source_address is the address of the sharing account. -/
structure FileShareInfo where
  meta : FileMetadata
  source_address : String
deriving DecidableEq

/-- Result of resolving a pod for the active account: its network address and
its wallet signing key (getExtendedPodsListByAccountData in the source). -/
structure PodInfo where
  podAddress : String
  podWalletKey : String
deriving DecidableEq

/-- Upload options of the source type DataUploadOptions. -/
structure DataUploadOptions where
  blockSize : Int
  contentType : String
deriving DecidableEq

/-- Default upload options of the File class (file.ts lines 30 to 33). -/
def defaultUploadOptions : DataUploadOptions :=
  { blockSize := 1000000, contentType := "" }

/-- Remote calls issued by the layer, recorded in program order. put is an
upload of bytes to the content-addressed store (uploadBytes in the source),
writeFeed is the feed publish carrying the metadata record and the signing
key, addEntry and removeEntry are the directory index operations, getPodsList
is the account-side pod resolution, getMeta is the raw metadata fetch,
downloadCall is the content download path, fetchShareInfo and fetchPodInfo
resolve share capsules. -/
inductive Event where
  | put (data : List Nat)
  | addEntry (ownerKey path name : String) (isFile : Bool)
  | removeEntry (ownerKey path name : String) (isFile : Bool)
  | writeFeed (topic : String) (meta : FileMetadata) (signingKey : String)
  | getPodsList (podName : String)
  | getMeta (path address : String)
  | downloadCall (path address : String)
  | fetchShareInfo (ref : String)
  | fetchPodInfo (ref : String)
deriving DecidableEq

/-- True exactly on content-addressed store writes. -/
def Event.isPut : Event → Bool
  | .put _ => true
  | _ => false

/-- True exactly on directory entry removals. -/
def Event.isRemoveEntry : Event → Bool
  | .removeEntry _ _ _ _ => true
  | _ => false

/-- True exactly on feed publishes. -/
def Event.isWriteFeed : Event → Bool
  | .writeFeed _ _ _ => true
  | _ => false

/-- True exactly on directory entry additions. -/
def Event.isAddEntry : Event → Bool
  | .addEntry _ _ _ _ => true
  | _ => false

/-- Environment of collaborator oracles. hasAccount models whether an active
account is present (assertAccount of the source fails with NotAuthenticated
exactly when it is absent, per the spec). podNameOk, fullPathOk and encRefOk
model the pure validation helpers assertPodName, assertFullPathWithName and
assertEncryptedReference, whose sources are not available; per the spec they
reject malformed input before any remote call. put models the deterministic
content address assigned by the store. blocksToManifest composes the missing
adapter blocksToManifest with stringToBytes. extractPath models
extractPathInfo, splitting a full path into directory path and leaf name.
The remaining fields model the responses of the remote collaborators. -/
structure Env where
  hasAccount : Bool
  podNameOk : String → Bool
  fullPathOk : String → Bool
  encRefOk : String → Bool
  podLookup : String → Option PodInfo
  put : List Nat → String
  now : Nat
  blocksToManifest : Blocks → List Nat
  extractPath : String → String × String
  sharedFileInfo : String → FileShareInfo
  sharedPodAddress : String → String
  downloadResult : String → String → List Nat
  rawMetadata : String → String → FileMetadata
  encodeShareInfo : FileShareInfo → List Nat

/-- Modelled from the spec: generateBlockName (imported from file/handler,
source not available) derives the block name deterministically from the
ordinal index of the block within the file. -/
def generateBlockName (index : Nat) : String :=
  "block-" ++ toString index

/-- Modelled from the spec: updateFileMetadata (imported from file/utils,
source not available) rewrites the pod, path, name and pod address fields of
shared metadata to the importing pod while preserving all content fields. -/
def updateFileMetadata (meta : FileMetadata) (podName filePath fileName podAddress : String) :
    FileMetadata :=
  { meta with
    podName := podName
    filePath := filePath
    fileName := fileName
    podAddress := podAddress }

/-- Modelled from the spec: rawFileMetadataToFileMetadata converts the raw
wire record into FileMetadata; the two forms round-trip exactly, so on this
shallow representation the conversion is the identity. -/
def rawFileMetadataToFileMetadata (meta : FileMetadata) : FileMetadata :=
  meta

/-- Modelled from the spec: combine (imported from directory/utils, source
not available) joins a parent path and a leaf name into the full path. -/
def combine (path name : String) : String :=
  path ++ "/" ++ name

/-- Modelled from the spec: prepareEthAddress converts the textual address
into its binary form; on this shallow representation it is the identity. -/
def prepareEthAddress (address : String) : String :=
  address

/-- Modelled from the spec: createFileShareInfo (imported from file/utils,
source not available) pairs the raw metadata with the sharing pod address. -/
def createFileShareInfo (meta : FileMetadata) (podAddress : String) : FileShareInfo :=
  { meta := meta, source_address := podAddress }

/-- Ceiling division on naturals: the block count Math.ceil(len / n) of the
source for a positive block size n. -/
def ceilDivNat (len n : Nat) : Nat :=
  (len + n - 1) / n

/-- Math.ceil(len / bs) of the source for an integer block size. For positive
bs it is ceilDivNat; for negative bs the quotient is nonpositive and
JavaScript Math.ceil rounds it toward zero, giving the negation of the floor
division by the absolute value. The case bs = 0 with len = 0 gives NaN in
JavaScript, under which the source loop runs zero times, matching the value 0
returned here; bs = 0 with len positive gives Infinity and a loop that never
terminates, a case the embedding of uploadData maps to none before using this
function. -/
def mathCeilDiv (len : Nat) (bs : Int) : Int :=
  if 0 < bs then Int.ofNat (ceilDivNat len bs.toNat)
  else -(Int.ofNat (len / bs.natAbs))

/-- JavaScript Array.prototype.slice on a byte list with nonnegative bounds:
elements from start (inclusive) to stop (exclusive), clamped to the list. -/
def jsSlice (data : List Nat) (start stop : Nat) : List Nat :=
  (data.drop start).take (stop - start)

/-- The ordered sequence of block payloads cut by the upload loop of file.ts
(line 84): slice i covers indices from i * blockSize to (i+1) * blockSize,
for i below Math.ceil(length / blockSize). -/
def splitData (data : List Nat) (blockSize : Nat) : List (List Nat) :=
  (List.range (ceilDivNat data.length blockSize)).map fun i =>
    jsSlice data (i * blockSize) ((i + 1) * blockSize)

/-- The block descriptors accumulated by the upload loop of file.ts
(lines 83 to 92): one descriptor per slice, named after its index, with size
and compressedSize equal to the slice length and reference the content
address returned by the store. -/
def buildBlocks (env : Env) (data : List Nat) (bs count : Nat) : List BlockDescriptor :=
  (List.range count).map fun i =>
    let currentBlock := jsSlice data (i * bs) ((i + 1) * bs)
    { name := generateBlockName i
      size := currentBlock.length
      compressedSize := currentBlock.length
      reference := env.put currentBlock }

/-- Embedding of File.uploadData (file.ts lines 65 to 116). The checks run in
source order: assertAccount, assertPodName, assertFullPathWithName (the
second assertPodName of the source repeats an identical check and is
omitted), then pod resolution, the block loop, the manifest upload, the
metadata construction, the directory registration and the feed publish. The
result none marks the one non-terminating execution of the source: blockSize
equal to 0 with a nonempty payload makes the loop bound Infinity. -/
def uploadData (env : Env) (podName fullPath : String) (data : List Nat)
    (options : Option DataUploadOptions) :
    Option (List Event × Except FdpError FileMetadata) :=
  let opts := options.getD defaultUploadOptions
  if env.hasAccount = false then some ([], Except.error FdpError.notAuthenticated)
  else if env.podNameOk podName = false then some ([], Except.error FdpError.invalidPodName)
  else if env.fullPathOk fullPath = false then some ([], Except.error FdpError.invalidPath)
  else
    match env.podLookup podName with
    | none => some ([Event.getPodsList podName], Except.error FdpError.podNotFound)
    | some extendedInfo =>
      if opts.blockSize = 0 ∧ data.length ≠ 0 then none
      else
        let pathInfo := env.extractPath fullPath
        let bs := opts.blockSize.toNat
        let count := (mathCeilDiv data.length opts.blockSize).toNat
        let blocks := buildBlocks env data bs count
        let manifestBytes := env.blocksToManifest { blocks := blocks }
        let meta : FileMetadata :=
          { version := META_VERSION
            podAddress := extendedInfo.podAddress
            podName := podName
            filePath := pathInfo.1
            fileName := pathInfo.2
            fileSize := data.length
            blockSize := opts.blockSize
            contentType := opts.contentType
            compression := ""
            creationTime := env.now
            accessTime := env.now
            modificationTime := env.now
            blocksReference := env.put manifestBytes }
        some (Event.getPodsList podName ::
          ((List.range count).map fun i => Event.put (jsSlice data (i * bs) ((i + 1) * bs))) ++
          [Event.put manifestBytes,
           Event.addEntry extendedInfo.podWalletKey pathInfo.1 pathInfo.2 true,
           Event.writeFeed fullPath meta extendedInfo.podWalletKey],
          Except.ok meta)

/-- Embedding of File.downloadData (file.ts lines 43 to 55): session and
input validation, pod resolution, then the download against the pod
address. -/
def downloadData (env : Env) (podName fullPath : String) :
    List Event × Except FdpError (List Nat) :=
  if env.hasAccount = false then ([], Except.error FdpError.notAuthenticated)
  else if env.podNameOk podName = false then ([], Except.error FdpError.invalidPodName)
  else if env.fullPathOk fullPath = false then ([], Except.error FdpError.invalidPath)
  else
    match env.podLookup podName with
    | none => ([Event.getPodsList podName], Except.error FdpError.podNotFound)
    | some extendedInfo =>
      ([Event.getPodsList podName, Event.downloadCall fullPath extendedInfo.podAddress],
        Except.ok (env.downloadResult fullPath extendedInfo.podAddress))

/-- Embedding of File.delete (file.ts lines 124 to 138): session and input
validation in source order (full path before pod name), pod resolution, then
exactly one directory entry removal and nothing else. -/
def delete (env : Env) (podName fullPath : String) :
    List Event × Except FdpError Unit :=
  if env.hasAccount = false then ([], Except.error FdpError.notAuthenticated)
  else if env.fullPathOk fullPath = false then ([], Except.error FdpError.invalidPath)
  else if env.podNameOk podName = false then ([], Except.error FdpError.invalidPodName)
  else
    let pathInfo := env.extractPath fullPath
    match env.podLookup podName with
    | none => ([Event.getPodsList podName], Except.error FdpError.podNotFound)
    | some extendedInfo =>
      ([Event.getPodsList podName,
        Event.removeEntry extendedInfo.podWalletKey pathInfo.1 pathInfo.2 true],
        Except.ok ())

/-- Embedding of File.share (file.ts lines 146 to 157): session and input
validation in source order, pod resolution, raw metadata fetch, then the
upload of the serialized share info, whose content address is returned. -/
def share (env : Env) (podName fullPath : String) :
    List Event × Except FdpError String :=
  if env.hasAccount = false then ([], Except.error FdpError.notAuthenticated)
  else if env.fullPathOk fullPath = false then ([], Except.error FdpError.invalidPath)
  else if env.podNameOk podName = false then ([], Except.error FdpError.invalidPodName)
  else
    match env.podLookup podName with
    | none => ([Event.getPodsList podName], Except.error FdpError.podNotFound)
    | some extendedInfo =>
      let meta := env.rawMetadata fullPath extendedInfo.podAddress
      let data := env.encodeShareInfo (createFileShareInfo meta extendedInfo.podAddress)
      ([Event.getPodsList podName, Event.getMeta fullPath extendedInfo.podAddress,
        Event.put data],
        Except.ok (env.put data))

/-- Embedding of File.getSharedInfo (file.ts lines 168 to 172): the reference
format assertion runs first and locally; only then is the share capsule
fetched. No session assertion occurs on this path. -/
def getSharedInfo (env : Env) (reference : String) :
    List Event × Except FdpError FileShareInfo :=
  if env.encRefOk reference = false then ([], Except.error FdpError.invalidReference)
  else ([Event.fetchShareInfo reference], Except.ok (env.sharedFileInfo reference))

/-- Embedding of File.saveShared (file.ts lines 184 to 202): pod name
validation, share resolution through getSharedInfo, pod resolution, metadata
rewrite, directory registration and feed publish under the importing pod
identity. No session assertion occurs on this path. -/
def saveShared (env : Env) (podName parentPath reference : String)
    (rename : Option String) :
    List Event × Except FdpError FileMetadata :=
  if env.podNameOk podName = false then ([], Except.error FdpError.invalidPodName)
  else if env.encRefOk reference = false then ([], Except.error FdpError.invalidReference)
  else
    let sharedInfo := env.sharedFileInfo reference
    match env.podLookup podName with
    | none =>
      ([Event.fetchShareInfo reference, Event.getPodsList podName],
        Except.error FdpError.podNotFound)
    | some extendedInfo =>
      let fileName := rename.getD sharedInfo.meta.fileName
      let meta := updateFileMetadata (rawFileMetadataToFileMetadata sharedInfo.meta)
        podName parentPath fileName extendedInfo.podAddress
      let fullPath := combine parentPath fileName
      ([Event.fetchShareInfo reference, Event.getPodsList podName,
        Event.addEntry extendedInfo.podWalletKey parentPath fileName true,
        Event.writeFeed fullPath meta extendedInfo.podWalletKey],
        Except.ok meta)

/-- Embedding of File.downloadShared (file.ts lines 211 to 221): share
resolution through getSharedInfo, then the download against the address of
the sharing account. No session assertion occurs on this path. -/
def downloadShared (env : Env) (fileReference : String) :
    List Event × Except FdpError (List Nat) :=
  if env.encRefOk fileReference = false then ([], Except.error FdpError.invalidReference)
  else
    let info := env.sharedFileInfo fileReference
    let path := combine info.meta.filePath info.meta.fileName
    let addr := prepareEthAddress info.source_address
    ([Event.fetchShareInfo fileReference, Event.downloadCall path addr],
      Except.ok (env.downloadResult path addr))

/-- Embedding of File.downloadFromSharedPod (file.ts lines 231 to 242): the
reference format assertion runs first and locally; then the shared pod info
is fetched and the download runs against its address. No session assertion
occurs on this path. -/
def downloadFromSharedPod (env : Env) (podReference fullPath : String) :
    List Event × Except FdpError (List Nat) :=
  if env.encRefOk podReference = false then ([], Except.error FdpError.invalidReference)
  else
    let addr := prepareEthAddress (env.sharedPodAddress podReference)
    ([Event.fetchPodInfo podReference, Event.downloadCall fullPath addr],
      Except.ok (env.downloadResult fullPath addr))

/-- Length of the slice cut for block i: the block size, unless the payload
runs out first. -/
lemma jsSlice_block_length (p : List Nat) (n i : Nat) :
    (jsSlice p (i * n) ((i + 1) * n)).length = min n (p.length - i * n) := by
  have h : (i + 1) * n = i * n + n := by ring
  simp [jsSlice, h, Nat.add_sub_cancel_left]

/-- The number of slices is the ceiling of the length over the block size. -/
lemma splitData_length (p : List Nat) (n : Nat) :
    (splitData p n).length = ceilDivNat p.length n := by
  simp [splitData]

/-- The slice at index i of the split. -/
lemma splitData_get (p : List Nat) (n i : Nat) (h : i < (splitData p n).length) :
    (splitData p n).get ⟨i, h⟩ = jsSlice p (i * n) ((i + 1) * n) := by
  simp [splitData]

/-- Concatenating the first m slices of the split recovers the first
m * blockSize bytes of the payload. -/
lemma splitData_flatten_aux (p : List Nat) (n : Nat) :
    ∀ m, (((List.range m).map fun i => jsSlice p (i * n) ((i + 1) * n)).flatten) =
      p.take (m * n)
  | 0 => by simp
  | m + 1 => by
    rw [List.range_succ, List.map_append, List.flatten_append, splitData_flatten_aux p n m]
    have h1 : (m + 1) * n = m * n + n := by ring
    rw [h1, List.take_add]
    simp [jsSlice, h1, Nat.add_sub_cancel_left]

/-- The ceiling block count times the block size covers the whole payload. -/
lemma le_ceilDivNat_mul (len n : Nat) (hn : 0 < n) : len ≤ ceilDivNat len n * n := by
  unfold ceilDivNat
  have h1 := Nat.div_add_mod (len + n - 1) n
  have h2 : (len + n - 1) % n < n := Nat.mod_lt _ hn
  rw [Nat.mul_comm]
  omega

/-- Concatenating all slices of the split recovers the payload exactly. -/
lemma splitData_flatten (p : List Nat) (n : Nat) (hn : 0 < n) :
    (splitData p n).flatten = p := by
  unfold splitData
  rw [splitData_flatten_aux]
  exact List.take_of_length_le (le_ceilDivNat_mul p.length n hn)

/-- Every slice index below the last one leaves at least a full block of
payload beyond its start. -/
lemma succ_mul_lt_of_lt_ceilDivNat (len n i : Nat) (hn : 0 < n)
    (h : i + 1 < ceilDivNat len n) : (i + 1) * n < len := by
  unfold ceilDivNat at h
  have h2 : (i + 2) * n ≤ len + n - 1 := (Nat.le_div_iff_mul_le hn).mp h
  have h3 : (i + 2) * n = (i + 1) * n + n := by ring
  omega

/-- A nonempty payload has a positive block count. -/
lemma ceilDivNat_pos (len n : Nat) (hn : 0 < n) (hlen : 0 < len) :
    0 < ceilDivNat len n := by
  unfold ceilDivNat
  have h2 : 1 * n ≤ len + n - 1 := by omega
  exact (Nat.le_div_iff_mul_le hn).mpr h2

/-- The last slice of a nonempty payload starts strictly inside it. -/
lemma pred_mul_lt_ceilDivNat (len n : Nat) (hn : 0 < n) (hlen : 0 < len) :
    (ceilDivNat len n - 1) * n < len := by
  by_contra hc
  push_neg at hc
  have hc1 : 0 < ceilDivNat len n := ceilDivNat_pos len n hn hlen
  have h4 : ceilDivNat len n = ceilDivNat len n - 1 + 1 := by omega
  have h5 : ceilDivNat len n * n = (ceilDivNat len n - 1) * n + n := by
    nth_rewrite 1 [h4]; ring
  have h6 : len + n - 1 < ceilDivNat len n * n := by omega
  have h7 : (len + n - 1) / n < ceilDivNat len n := (Nat.div_lt_iff_lt_mul hn).mpr h6
  exact absurd h7 (by unfold ceilDivNat; omega)

/-- Every slice but the last has length exactly the block size. -/
lemma splitData_get_length_of_not_last (p : List Nat) (n i : Nat) (hn : 0 < n)
    (h : i < (splitData p n).length) (hlast : i + 1 < (splitData p n).length) :
    ((splitData p n).get ⟨i, h⟩).length = n := by
  rw [splitData_get, jsSlice_block_length]
  rw [splitData_length] at hlast
  have h2 := succ_mul_lt_of_lt_ceilDivNat p.length n i hn hlast
  have h3 : (i + 1) * n = i * n + n := by ring
  omega

/-- The last slice of a nonempty payload has length between 1 and the block
size. -/
lemma splitData_getLast_length (p : List Nat) (n : Nat) (hn : 0 < n)
    (lb : List Nat) (h : (splitData p n).getLast? = some lb) :
    1 ≤ lb.length ∧ lb.length ≤ n := by
  rw [List.getLast?_eq_getElem?] at h
  have hne : splitData p n ≠ [] := by
    intro hnil
    rw [hnil] at h
    simp at h
  have hpos : 0 < (splitData p n).length := List.length_pos.mpr hne
  have hlt : (splitData p n).length - 1 < (splitData p n).length := by omega
  rw [List.getElem?_eq_getElem hlt] at h
  have hlb : lb = (splitData p n).get ⟨(splitData p n).length - 1, hlt⟩ := by
    simpa [List.get_eq_getElem] using h.symm
  have hplen : 0 < p.length := by
    by_contra hp0
    push_neg at hp0
    have : p.length = 0 := by omega
    have : (splitData p n).length = 0 := by
      rw [splitData_length, this]
      unfold ceilDivNat
      have : n - 1 < n := by omega
      simpa using Nat.div_eq_of_lt this
    omega
  rw [hlb, splitData_get, jsSlice_block_length]
  rw [splitData_length]
  have h1 := pred_mul_lt_ceilDivNat p.length n hn hplen
  have h2 := le_ceilDivNat_mul p.length n hn
  have hc1 : 0 < ceilDivNat p.length n := ceilDivNat_pos p.length n hn hplen
  have h4 : ceilDivNat p.length n = ceilDivNat p.length n - 1 + 1 := by omega
  have h5 : ceilDivNat p.length n * n = (ceilDivNat p.length n - 1) * n + n := by
    nth_rewrite 1 [h4]; ring
  omega

/-- For a positive block size given as a natural, the JavaScript ceiling
count is the natural ceiling division. -/
lemma mathCeilDiv_coe (len n : Nat) (hn : 0 < n) :
    (mathCeilDiv len (n : Int)).toNat = ceilDivNat len n := by
  have hpos : (0 : Int) < (n : Int) := by exact_mod_cast hn
  simp [mathCeilDiv, hpos]

/-- For a negative block size the JavaScript ceiling count is nonpositive,
so the loop runs zero times. -/
lemma mathCeilDiv_neg (len : Nat) (bs : Int) (h : bs < 0) :
    (mathCeilDiv len bs).toNat = 0 := by
  have hns : ¬ (0 : Int) < bs := by omega
  rw [mathCeilDiv, if_neg hns]
  have h2 : (0 : Int) ≤ Int.ofNat (len / bs.natAbs) := Int.ofNat_nonneg _
  omega

/-- An empty payload yields a zero loop count for every block size. -/
lemma mathCeilDiv_zero_len (bs : Int) : (mathCeilDiv 0 bs).toNat = 0 := by
  rcases lt_or_le 0 bs with hpos | hle
  · rw [mathCeilDiv, if_pos hpos]
    have ht : 0 < bs.toNat := by omega
    have hlt : bs.toNat - 1 < bs.toNat := by omega
    simp [ceilDivNat, Nat.div_eq_of_lt hlt]
  · rw [mathCeilDiv, if_neg (by omega)]
    simp

/-- The sizes recorded in the block descriptors are the lengths of the
slices of the split. -/
lemma buildBlocks_map_size (env : Env) (p : List Nat) (n : Nat) :
    (buildBlocks env p n (ceilDivNat p.length n)).map BlockDescriptor.size =
      (splitData p n).map List.length := by
  simp [buildBlocks, splitData, List.map_map]

/-- The sum of the recorded block sizes is the payload length. -/
lemma buildBlocks_size_sum (env : Env) (p : List Nat) (n : Nat) (hn : 0 < n) :
    ((buildBlocks env p n (ceilDivNat p.length n)).map BlockDescriptor.size).sum = p.length := by
  rw [buildBlocks_map_size, ← List.length_flatten, splitData_flatten p n hn]

/-- The descriptor at index i of the block collection. -/
lemma buildBlocks_get (env : Env) (p : List Nat) (n count i : Nat)
    (h : i < (buildBlocks env p n count).length) :
    (buildBlocks env p n count).get ⟨i, h⟩ =
      { name := generateBlockName i
        size := (jsSlice p (i * n) ((i + 1) * n)).length
        compressedSize := (jsSlice p (i * n) ((i + 1) * n)).length
        reference := env.put (jsSlice p (i * n) ((i + 1) * n)) } := by
  simp [buildBlocks]

/-- The metadata record built by uploadData at lines 96 to 110 of file.ts. -/
def uploadMeta (env : Env) (podName fullPath : String) (p : List Nat)
    (opts : DataUploadOptions) (info : PodInfo) : FileMetadata :=
  { version := META_VERSION
    podAddress := info.podAddress
    podName := podName
    filePath := (env.extractPath fullPath).1
    fileName := (env.extractPath fullPath).2
    fileSize := p.length
    blockSize := opts.blockSize
    contentType := opts.contentType
    compression := ""
    creationTime := env.now
    accessTime := env.now
    modificationTime := env.now
    blocksReference := env.put (env.blocksToManifest
      { blocks := buildBlocks env p opts.blockSize.toNat
          ((mathCeilDiv p.length opts.blockSize).toNat) }) }

/-- Unfolding of uploadData on the successful path: all validations pass,
the pod resolves, and the loop bound is finite. -/
lemma uploadData_success (env : Env) (podName fullPath : String) (p : List Nat)
    (opts : DataUploadOptions) (info : PodInfo)
    (hacc : env.hasAccount = true) (hpod : env.podNameOk podName = true)
    (hpath : env.fullPathOk fullPath = true)
    (hlookup : env.podLookup podName = some info)
    (hbs : ¬(opts.blockSize = 0 ∧ p.length ≠ 0)) :
    uploadData env podName fullPath p (some opts) =
      some (Event.getPodsList podName ::
        ((List.range ((mathCeilDiv p.length opts.blockSize).toNat)).map fun i =>
          Event.put (jsSlice p (i * opts.blockSize.toNat) ((i + 1) * opts.blockSize.toNat))) ++
        [Event.put (env.blocksToManifest
            { blocks := buildBlocks env p opts.blockSize.toNat
                ((mathCeilDiv p.length opts.blockSize).toNat) }),
         Event.addEntry info.podWalletKey (env.extractPath fullPath).1
           (env.extractPath fullPath).2 true,
         Event.writeFeed fullPath (uploadMeta env podName fullPath p opts info)
           info.podWalletKey],
        Except.ok (uploadMeta env podName fullPath p opts info)) := by
  simp [uploadData, hacc, hpod, hpath, hlookup, uploadMeta]
  intro h0
  rcases not_and_or.mp hbs with h | h
  · exact absurd h0 h
  · simp only [ne_eq, not_not] at h
    exact List.length_eq_zero.mp h

/-- Concrete collaborator environment used to witness the theorems. -/
def testEnv : Env :=
  { hasAccount := true
    podNameOk := fun _ => true
    fullPathOk := fun _ => true
    encRefOk := fun _ => true
    podLookup := fun _ => some { podAddress := "addr", podWalletKey := "key" }
    put := fun _ => "ref"
    now := 7
    blocksToManifest := fun _ => [42]
    extractPath := fun _ => ("/dir", "file")
    sharedFileInfo := fun _ =>
      { meta :=
          { version := META_VERSION
            podAddress := "origin-addr"
            podName := "origin-pod"
            filePath := "/shared"
            fileName := "orig"
            fileSize := 9
            blockSize := 1000000
            contentType := ""
            compression := ""
            creationTime := 3
            accessTime := 4
            modificationTime := 5
            blocksReference := "orig-blocks" }
        source_address := "src-addr" }
    sharedPodAddress := fun _ => "pod-addr"
    downloadResult := fun _ _ => [1, 2]
    rawMetadata := fun _ _ =>
      { version := META_VERSION
        podAddress := "addr"
        podName := "pod"
        filePath := "/dir"
        fileName := "file"
        fileSize := 9
        blockSize := 1000000
        contentType := ""
        compression := ""
        creationTime := 3
        accessTime := 4
        modificationTime := 5
        blocksReference := "orig-blocks" }
    encodeShareInfo := fun _ => [9] }

/-- Environment whose reference format validation rejects everything. -/
def testEnvNoRef : Env :=
  { testEnv with encRefOk := fun _ => false }

/-- Environment with no active account session. -/
def testEnvNoAuth : Env :=
  { testEnv with hasAccount := false }

/-- A list of store writes is left intact by the put filter. -/
lemma filter_isPut_map_put (L : List (List Nat)) :
    (L.map Event.put).filter Event.isPut = L.map Event.put := by
  induction L with
  | nil => rfl
  | cons a t ih => simp [Event.isPut, ih]

/-- C1: for every payload p and positive block size n, uploadData splits p
into ceil(length p / n) blocks; the store writes of its trace are exactly
those blocks in collection order followed by the manifest; every block but
the last has length exactly n and the last has length between 1 and n;
concatenating the blocks in order yields p; the returned metadata has
fileSize equal to the payload length; and a payload of 2500000 bytes with
block size 1000000 gives exactly the sizes 1000000, 1000000, 500000. -/
theorem uploadData_splits_payload (env : Env) (podName fullPath : String) (p : List Nat)
    (n : Nat) (ct : String) (info : PodInfo) (hn : 0 < n)
    (hacc : env.hasAccount = true) (hpod : env.podNameOk podName = true)
    (hpath : env.fullPathOk fullPath = true)
    (hlookup : env.podLookup podName = some info) :
    (uploadData env podName fullPath p
        (some { blockSize := (n : Int), contentType := ct })).map
        (fun r => r.1.filter Event.isPut) =
      some ((splitData p n).map Event.put ++
        [Event.put (env.blocksToManifest
          { blocks := buildBlocks env p n (ceilDivNat p.length n) })]) ∧
    (splitData p n).length = ceilDivNat p.length n ∧
    (∀ i (h : i < (splitData p n).length), i + 1 < (splitData p n).length →
      ((splitData p n).get ⟨i, h⟩).length = n) ∧
    (∀ lb, (splitData p n).getLast? = some lb → 1 ≤ lb.length ∧ lb.length ≤ n) ∧
    (uploadData env podName fullPath p
        (some { blockSize := (n : Int), contentType := ct })).map
        (fun r => r.2.map FileMetadata.fileSize) = some (Except.ok p.length) ∧
    (p.length = 2500000 → n = 1000000 →
      (splitData p n).map List.length = [1000000, 1000000, 500000]) ∧
    (splitData p n).flatten = p := by
  have hbs : ¬((((n : Int))) = 0 ∧ p.length ≠ 0) := by
    rintro ⟨h0, _⟩
    have : n = 0 := by exact_mod_cast h0
    omega
  have hu := uploadData_success env podName fullPath p
    { blockSize := (n : Int), contentType := ct } info hacc hpod hpath hlookup hbs
  simp only [mathCeilDiv_coe p.length n hn, Int.toNat_ofNat] at hu
  refine ⟨?_, splitData_length p n, ?_, ?_, ?_, ?_, splitData_flatten p n hn⟩
  · rw [hu]
    have hmm : (List.range (ceilDivNat p.length n)).map
        (fun i => Event.put (jsSlice p (i * n) ((i + 1) * n))) =
        (splitData p n).map Event.put := by
      unfold splitData
      rw [List.map_map]
      rfl
    simp only [Option.map_some']
    rw [hmm]
    simp [List.filter_cons, List.filter_append, filter_isPut_map_put, Event.isPut]
  · intro i h hi
    exact splitData_get_length_of_not_last p n i hn h hi
  · intro lb hlb
    exact splitData_getLast_length p n hn lb hlb
  · rw [hu]
    simp [uploadMeta, Except.map]
  · intro hp hn1
    subst hn1
    have hsz : (splitData p 1000000).map List.length =
        (List.range (ceilDivNat p.length 1000000)).map fun i =>
          min 1000000 (p.length - i * 1000000) := by
      unfold splitData
      rw [List.map_map]
      apply List.map_congr_left
      intro i _
      exact jsSlice_block_length p 1000000 i
    rw [hsz, hp]
    have hc : ceilDivNat 2500000 1000000 = 3 := by norm_num [ceilDivNat]
    rw [hc]
    decide

/-- Witness for C1 at a concrete environment, payload and block size. -/
theorem uploadData_splits_payload_witness :
    (splitData [1, 2, 3] 2).flatten = [1, 2, 3] :=
  (uploadData_splits_payload testEnv "pod" "/dir/file" [1, 2, 3] 2 "" { podAddress := "addr", podWalletKey := "key" }
    (by decide) rfl rfl rfl rfl).2.2.2.2.2.2

/-- C2: the metadata returned by uploadData has version equal to the schema
tag, all three timestamps equal to the time taken at the start of the
operation, fileSize equal to the payload length and to the sum of the size
fields of the block descriptors, blockSize equal to the configured block
size, blocksReference equal to the content address of the uploaded manifest,
and every descriptor named after its ordinal index with compressedSize equal
to size. -/
theorem uploadData_metadata_fields (env : Env) (podName fullPath : String) (p : List Nat)
    (n : Nat) (ct : String) (info : PodInfo) (hn : 0 < n)
    (hacc : env.hasAccount = true) (hpod : env.podNameOk podName = true)
    (hpath : env.fullPathOk fullPath = true)
    (hlookup : env.podLookup podName = some info) :
    (uploadData env podName fullPath p
        (some { blockSize := (n : Int), contentType := ct })).map (fun r => r.2) =
      some (Except.ok (uploadMeta env podName fullPath p
        { blockSize := (n : Int), contentType := ct } info)) ∧
    (uploadMeta env podName fullPath p { blockSize := (n : Int), contentType := ct }
      info).version = META_VERSION ∧
    (uploadMeta env podName fullPath p { blockSize := (n : Int), contentType := ct }
      info).creationTime = env.now ∧
    (uploadMeta env podName fullPath p { blockSize := (n : Int), contentType := ct }
      info).accessTime = env.now ∧
    (uploadMeta env podName fullPath p { blockSize := (n : Int), contentType := ct }
      info).modificationTime = env.now ∧
    (uploadMeta env podName fullPath p { blockSize := (n : Int), contentType := ct }
      info).fileSize = p.length ∧
    (uploadMeta env podName fullPath p { blockSize := (n : Int), contentType := ct }
      info).blockSize = (n : Int) ∧
    (uploadMeta env podName fullPath p { blockSize := (n : Int), contentType := ct }
      info).blocksReference = env.put (env.blocksToManifest
        { blocks := buildBlocks env p n (ceilDivNat p.length n) }) ∧
    (∀ i (h : i < (buildBlocks env p n (ceilDivNat p.length n)).length),
      ((buildBlocks env p n (ceilDivNat p.length n)).get ⟨i, h⟩).name = generateBlockName i ∧
      ((buildBlocks env p n (ceilDivNat p.length n)).get ⟨i, h⟩).compressedSize =
        ((buildBlocks env p n (ceilDivNat p.length n)).get ⟨i, h⟩).size) ∧
    ((buildBlocks env p n (ceilDivNat p.length n)).map BlockDescriptor.size).sum = p.length := by
  have hbs : ¬((((n : Int))) = 0 ∧ p.length ≠ 0) := by
    rintro ⟨h0, _⟩
    have : n = 0 := by exact_mod_cast h0
    omega
  have hu := uploadData_success env podName fullPath p
    { blockSize := (n : Int), contentType := ct } info hacc hpod hpath hlookup hbs
  refine ⟨by rw [hu]; rfl, rfl, rfl, rfl, rfl, rfl, rfl, ?_, ?_, buildBlocks_size_sum env p n hn⟩
  · show env.put (env.blocksToManifest
      { blocks := buildBlocks env p ((n : Int)).toNat ((mathCeilDiv p.length ((n : Int))).toNat) }) = _
    rw [mathCeilDiv_coe p.length n hn]
    simp
  · intro i h
    rw [buildBlocks_get]
    exact ⟨rfl, rfl⟩

/-- Witness for C2 at a concrete environment, payload and block size. -/
theorem uploadData_metadata_fields_witness :
    ((buildBlocks testEnv [1, 2, 3] 2 (ceilDivNat 3 2)).map BlockDescriptor.size).sum = 3 :=
  (uploadData_metadata_fields testEnv "pod" "/dir/file" [1, 2, 3] 2 ""
    { podAddress := "addr", podWalletKey := "key" }
    (by decide) rfl rfl rfl rfl).2.2.2.2.2.2.2.2.2

/-- The last element of a trace of this shape is its closing event. -/
lemma getLast?_cons_append_three {α : Type} (x a b w : α) (L : List α) :
    (x :: (L ++ [a, b, w])).getLast? = some w := by
  induction L generalizing x with
  | nil => simp
  | cons h t ih => rw [List.cons_append, List.getLast?_cons_cons]; exact ih h

/-- C6: in every successful execution of uploadData the trace is the pod
resolution, then all block uploads in order, then the manifest upload, then
the directory registration, then the feed publish as the final remote step;
the manifest contents carry the references returned by the block uploads,
the published metadata carries the reference returned by the manifest
upload, and the feed publish carries that metadata. -/
theorem uploadData_step_order (env : Env) (podName fullPath : String) (p : List Nat)
    (n : Nat) (ct : String) (info : PodInfo) (hn : 0 < n)
    (hacc : env.hasAccount = true) (hpod : env.podNameOk podName = true)
    (hpath : env.fullPathOk fullPath = true)
    (hlookup : env.podLookup podName = some info) :
    uploadData env podName fullPath p
        (some { blockSize := (n : Int), contentType := ct }) =
      some (Event.getPodsList podName ::
        (splitData p n).map Event.put ++
        [Event.put (env.blocksToManifest
            { blocks := buildBlocks env p n (ceilDivNat p.length n) }),
         Event.addEntry info.podWalletKey (env.extractPath fullPath).1
           (env.extractPath fullPath).2 true,
         Event.writeFeed fullPath
           (uploadMeta env podName fullPath p { blockSize := (n : Int), contentType := ct } info)
           info.podWalletKey],
        Except.ok (uploadMeta env podName fullPath p
          { blockSize := (n : Int), contentType := ct } info)) ∧
    (∀ i (h : i < (buildBlocks env p n (ceilDivNat p.length n)).length),
      ((buildBlocks env p n (ceilDivNat p.length n)).get ⟨i, h⟩).reference =
        env.put (jsSlice p (i * n) ((i + 1) * n))) ∧
    (uploadData env podName fullPath p
        (some { blockSize := (n : Int), contentType := ct })).map
        (fun r => r.1.getLast?) =
      some (some (Event.writeFeed fullPath
        (uploadMeta env podName fullPath p { blockSize := (n : Int), contentType := ct } info)
        info.podWalletKey)) ∧
    (uploadMeta env podName fullPath p { blockSize := (n : Int), contentType := ct }
      info).blocksReference = env.put (env.blocksToManifest
        { blocks := buildBlocks env p n (ceilDivNat p.length n) }) := by
  have hbs : ¬((((n : Int))) = 0 ∧ p.length ≠ 0) := by
    rintro ⟨h0, _⟩
    have : n = 0 := by exact_mod_cast h0
    omega
  have hu := uploadData_success env podName fullPath p
    { blockSize := (n : Int), contentType := ct } info hacc hpod hpath hlookup hbs
  simp only [mathCeilDiv_coe p.length n hn, Int.toNat_ofNat] at hu
  have hmm : (List.range (ceilDivNat p.length n)).map
      (fun i => Event.put (jsSlice p (i * n) ((i + 1) * n))) =
      (splitData p n).map Event.put := by
    unfold splitData
    rw [List.map_map]
    rfl
  refine ⟨?_, ?_, ?_, ?_⟩
  · rw [hu, hmm]
  · intro i h
    rw [buildBlocks_get]
  · rw [hu]
    simp only [Option.map_some']
    rw [List.cons_append, getLast?_cons_append_three]
  · show (uploadMeta env podName fullPath p
      { blockSize := (n : Int), contentType := ct } info).blocksReference = _
    show env.put (env.blocksToManifest
      { blocks := buildBlocks env p ((n : Int)).toNat ((mathCeilDiv p.length ((n : Int))).toNat) }) = _
    rw [mathCeilDiv_coe p.length n hn]
    simp

/-- Witness for C6 at a concrete environment, payload and block size. -/
theorem uploadData_step_order_witness :
    (uploadMeta testEnv "pod" "/dir/file" [1, 2, 3]
      { blockSize := (2 : Int), contentType := "" }
      { podAddress := "addr", podWalletKey := "key" }).blocksReference =
    testEnv.put (testEnv.blocksToManifest
      { blocks := buildBlocks testEnv [1, 2, 3] 2 (ceilDivNat 3 2) }) :=
  (uploadData_step_order testEnv "pod" "/dir/file" [1, 2, 3] 2 ""
    { podAddress := "addr", podWalletKey := "key" }
    (by decide) rfl rfl rfl rfl).2.2.2

/-- A zero loop count yields no block descriptors. -/
lemma buildBlocks_zero (env : Env) (p : List Nat) (bs : Nat) :
    buildBlocks env p bs 0 = [] := by
  simp [buildBlocks]

/-- C10: for a zero-length payload, uploadData uploads no blocks at all, yet
still uploads a manifest for the empty collection, registers the directory
entry, publishes the metadata through the feed, and returns metadata with
fileSize 0; the trace contains exactly one store write, the manifest. The
same holds with the default options. -/
theorem uploadData_empty_payload (env : Env) (podName fullPath ct : String) (bsz : Int)
    (info : PodInfo)
    (hacc : env.hasAccount = true) (hpod : env.podNameOk podName = true)
    (hpath : env.fullPathOk fullPath = true)
    (hlookup : env.podLookup podName = some info) :
    uploadData env podName fullPath [] (some { blockSize := bsz, contentType := ct }) =
      some ([Event.getPodsList podName,
             Event.put (env.blocksToManifest { blocks := [] }),
             Event.addEntry info.podWalletKey (env.extractPath fullPath).1
               (env.extractPath fullPath).2 true,
             Event.writeFeed fullPath
               (uploadMeta env podName fullPath [] { blockSize := bsz, contentType := ct } info)
               info.podWalletKey],
        Except.ok (uploadMeta env podName fullPath []
          { blockSize := bsz, contentType := ct } info)) ∧
    uploadData env podName fullPath [] none =
      some ([Event.getPodsList podName,
             Event.put (env.blocksToManifest { blocks := [] }),
             Event.addEntry info.podWalletKey (env.extractPath fullPath).1
               (env.extractPath fullPath).2 true,
             Event.writeFeed fullPath
               (uploadMeta env podName fullPath [] defaultUploadOptions info)
               info.podWalletKey],
        Except.ok (uploadMeta env podName fullPath [] defaultUploadOptions info)) ∧
    (uploadMeta env podName fullPath [] { blockSize := bsz, contentType := ct }
      info).fileSize = 0 ∧
    (uploadData env podName fullPath [] (some { blockSize := bsz, contentType := ct })).map
      (fun r => r.1.countP Event.isPut) = some 1 := by
  have hbs : ¬(bsz = 0 ∧ ([] : List Nat).length ≠ 0) := by simp
  have hu := uploadData_success env podName fullPath []
    { blockSize := bsz, contentType := ct } info hacc hpod hpath hlookup hbs
  simp only [List.length_nil, mathCeilDiv_zero_len, List.range_zero, List.map_nil,
    List.nil_append, buildBlocks_zero] at hu
  have hnone : uploadData env podName fullPath [] none =
      uploadData env podName fullPath [] (some defaultUploadOptions) := rfl
  have hbs2 : ¬((defaultUploadOptions.blockSize) = 0 ∧ ([] : List Nat).length ≠ 0) := by simp
  have hu2 := uploadData_success env podName fullPath []
    defaultUploadOptions info hacc hpod hpath hlookup hbs2
  simp only [List.length_nil, mathCeilDiv_zero_len, List.range_zero, List.map_nil,
    List.nil_append, buildBlocks_zero] at hu2
  refine ⟨hu, ?_, rfl, ?_⟩
  · rw [hnone, hu2]
    rfl
  · rw [hu]
    simp [List.countP_cons, Event.isPut]

/-- Witness for C10 at a concrete environment. -/
theorem uploadData_empty_payload_witness :
    (uploadData testEnv "pod" "/dir/file" []
        (some { blockSize := 5, contentType := "" })).map
      (fun r => r.1.countP Event.isPut) = some 1 :=
  (uploadData_empty_payload testEnv "pod" "/dir/file" "" 5
    { podAddress := "addr", podWalletKey := "key" } rfl rfl rfl rfl).2.2.2

/-- The metadata record that uploadData returns in the concrete environment
when called with blockSize -1 on a three-byte payload. -/
def negBlockSizeMeta : FileMetadata :=
  { version := META_VERSION
    podAddress := "addr"
    podName := "pod"
    filePath := "/dir"
    fileName := "file"
    fileSize := 3
    blockSize := -1
    contentType := ""
    compression := ""
    creationTime := 7
    accessTime := 7
    modificationTime := 7
    blocksReference := "ref" }

/-- C5 counterexample: uploadData performs no validation of blockSize. With
the negative block size -1 in a valid environment it does not fail with a
configuration error: it completes successfully, uploading zero blocks and
returning metadata that records blockSize -1. -/
theorem uploadData_accepts_negative_blockSize :
    uploadData testEnv "pod" "/dir/file" [1, 2, 3]
        (some { blockSize := -1, contentType := "" }) =
      some ([Event.getPodsList "pod",
             Event.put [42],
             Event.addEntry "key" "/dir" "file" true,
             Event.writeFeed "/dir/file" negBlockSizeMeta "key"],
        Except.ok negBlockSizeMeta) := by
  rfl

/-- C5 amended: uploadData performs no blockSize validation. With a negative
block size every validation passes and the operation completes with zero
blocks, recording the negative blockSize unchanged in the metadata; with
block size 0 and a nonempty payload the block loop of the source never
terminates, modelled as the result none. -/
theorem uploadData_no_blockSize_validation (env : Env) (podName fullPath : String)
    (p : List Nat) (bsz : Int) (ct : String) (info : PodInfo) (hneg : bsz < 0)
    (hacc : env.hasAccount = true) (hpod : env.podNameOk podName = true)
    (hpath : env.fullPathOk fullPath = true)
    (hlookup : env.podLookup podName = some info) :
    uploadData env podName fullPath p (some { blockSize := bsz, contentType := ct }) =
      some ([Event.getPodsList podName,
             Event.put (env.blocksToManifest { blocks := [] }),
             Event.addEntry info.podWalletKey (env.extractPath fullPath).1
               (env.extractPath fullPath).2 true,
             Event.writeFeed fullPath
               (uploadMeta env podName fullPath p { blockSize := bsz, contentType := ct } info)
               info.podWalletKey],
        Except.ok (uploadMeta env podName fullPath p
          { blockSize := bsz, contentType := ct } info)) ∧
    (uploadMeta env podName fullPath p { blockSize := bsz, contentType := ct }
      info).blockSize = bsz ∧
    (∀ d2 : List Nat, d2 ≠ [] →
      uploadData env podName fullPath d2 (some { blockSize := 0, contentType := ct }) = none) := by
  have hbs : ¬(bsz = 0 ∧ p.length ≠ 0) := by
    rintro ⟨h0, _⟩
    omega
  have hu := uploadData_success env podName fullPath p
    { blockSize := bsz, contentType := ct } info hacc hpod hpath hlookup hbs
  simp only [mathCeilDiv_neg p.length bsz hneg, List.range_zero, List.map_nil,
    List.nil_append, buildBlocks_zero] at hu
  refine ⟨hu, rfl, ?_⟩
  intro d2 hd2
  have hlen : d2.length ≠ 0 := by
    simpa [List.length_eq_zero] using hd2
  simp [uploadData, hacc, hpod, hpath, hlookup, hlen]

/-- Witness for the amended C5 at a concrete environment. -/
theorem uploadData_no_blockSize_validation_witness :
    uploadData testEnv "pod" "/dir/file" [9] (some { blockSize := 0, contentType := "" }) = none :=
  (uploadData_no_blockSize_validation testEnv "pod" "/dir/file" [1, 2, 3] (-1) ""
    { podAddress := "addr", podWalletKey := "key" }
    (by decide) rfl rfl rfl rfl).2.2 [9] (by decide)

/-- C4: a reference without the encrypted-reference shape makes getSharedInfo
and downloadFromSharedPod fail with the invalid-reference error and an empty
trace, so the rejection happens before any network access is attempted. -/
theorem invalid_reference_rejected_locally (env : Env) (reference fullPath : String)
    (h : env.encRefOk reference = false) :
    getSharedInfo env reference = ([], Except.error FdpError.invalidReference) ∧
    downloadFromSharedPod env reference fullPath =
      ([], Except.error FdpError.invalidReference) := by
  constructor
  · simp [getSharedInfo, h]
  · simp [downloadFromSharedPod, h]

/-- Witness for C4 at a concrete environment that rejects the reference. -/
theorem invalid_reference_rejected_locally_witness :
    getSharedInfo testEnvNoRef "r" = ([], Except.error FdpError.invalidReference) :=
  (invalid_reference_rejected_locally testEnvNoRef "r" "/dir/file" rfl).1

/-- C7: getSharedInfo, downloadShared and downloadFromSharedPod are
independent of the presence of an account session, succeed on every
well-formed encrypted reference, and never fail with the not-authenticated
error on any input. -/
theorem shared_ops_unauthenticated (env : Env) (b : Bool)
    (reference podRef fullPath : String)
    (href : env.encRefOk reference = true) (hpref : env.encRefOk podRef = true) :
    getSharedInfo { env with hasAccount := b } reference = getSharedInfo env reference ∧
    downloadShared { env with hasAccount := b } reference = downloadShared env reference ∧
    downloadFromSharedPod { env with hasAccount := b } podRef fullPath =
      downloadFromSharedPod env podRef fullPath ∧
    (getSharedInfo env reference).2 = Except.ok (env.sharedFileInfo reference) ∧
    (downloadShared env reference).2 = Except.ok (env.downloadResult
      (combine (env.sharedFileInfo reference).meta.filePath
        (env.sharedFileInfo reference).meta.fileName)
      (prepareEthAddress (env.sharedFileInfo reference).source_address)) ∧
    (downloadFromSharedPod env podRef fullPath).2 = Except.ok (env.downloadResult fullPath
      (prepareEthAddress (env.sharedPodAddress podRef))) ∧
    (∀ r2 p2, (getSharedInfo env r2).2 ≠ Except.error FdpError.notAuthenticated ∧
      (downloadShared env r2).2 ≠ Except.error FdpError.notAuthenticated ∧
      (downloadFromSharedPod env r2 p2).2 ≠ Except.error FdpError.notAuthenticated) := by
  refine ⟨rfl, rfl, rfl, ?_, ?_, ?_, ?_⟩
  · simp [getSharedInfo, href]
  · simp [downloadShared, href]
  · simp [downloadFromSharedPod, hpref]
  · intro r2 p2
    refine ⟨?_, ?_, ?_⟩
    · unfold getSharedInfo
      split <;> simp
    · unfold downloadShared
      split <;> simp
    · unfold downloadFromSharedPod
      split <;> simp

/-- Witness for C7 at a concrete environment. -/
theorem shared_ops_unauthenticated_witness :
    (getSharedInfo testEnv "r").2 = Except.ok (testEnv.sharedFileInfo "r") :=
  (shared_ops_unauthenticated testEnv true "r" "pr" "/dir/file" rfl rfl).2.2.2.1

/-- C8: delete issues exactly one directory-entry removal on the successful
path and, over all environments and arguments, performs no content-addressed
store write, no feed publish, no directory registration, and at most one
removal: deletion is logical, leaving blocks and feed history unchanged. -/
theorem delete_logical_removal (env : Env) (podName fullPath : String) (info : PodInfo)
    (hacc : env.hasAccount = true) (hpath : env.fullPathOk fullPath = true)
    (hpod : env.podNameOk podName = true)
    (hlookup : env.podLookup podName = some info) :
    delete env podName fullPath =
      ([Event.getPodsList podName,
        Event.removeEntry info.podWalletKey (env.extractPath fullPath).1
          (env.extractPath fullPath).2 true],
        Except.ok ()) ∧
    (∀ e2 pn2 fp2, ((delete e2 pn2 fp2).1.countP Event.isPut = 0 ∧
      (delete e2 pn2 fp2).1.countP Event.isWriteFeed = 0 ∧
      (delete e2 pn2 fp2).1.countP Event.isAddEntry = 0 ∧
      (delete e2 pn2 fp2).1.countP Event.isRemoveEntry ≤ 1)) ∧
    (delete env podName fullPath).1.countP Event.isRemoveEntry = 1 := by
  have hd : delete env podName fullPath =
      ([Event.getPodsList podName,
        Event.removeEntry info.podWalletKey (env.extractPath fullPath).1
          (env.extractPath fullPath).2 true],
        Except.ok ()) := by
    simp [delete, hacc, hpath, hpod, hlookup]
  refine ⟨hd, ?_, ?_⟩
  · intro e2 pn2 fp2
    unfold delete
    repeat' split
    all_goals simp [List.countP_cons, List.countP_nil, Event.isPut, Event.isWriteFeed,
      Event.isAddEntry, Event.isRemoveEntry]
  · rw [hd]
    simp [List.countP_cons, List.countP_nil, Event.isRemoveEntry]

/-- Witness for C8 at a concrete environment. -/
theorem delete_logical_removal_witness :
    (delete testEnv "pod" "/dir/file").1.countP Event.isRemoveEntry = 1 :=
  (delete_logical_removal testEnv "pod" "/dir/file"
    { podAddress := "addr", podWalletKey := "key" } rfl rfl rfl rfl).2.2

/-- C9: saveShared performs no session assertion: its behavior is independent
of whether an account session is present and it never fails with the
not-authenticated error, whereas uploadData, downloadData, delete and share
all fail with exactly that error and an empty trace whenever the session is
absent. -/
theorem saveShared_no_session_assertion (env : Env) (b : Bool)
    (podName parentPath reference : String) (rename : Option String)
    (pn2 fp2 : String) (d2 : List Nat) (opt2 : Option DataUploadOptions) :
    saveShared { env with hasAccount := b } podName parentPath reference rename =
      saveShared env podName parentPath reference rename ∧
    (saveShared env podName parentPath reference rename).2 ≠
      Except.error FdpError.notAuthenticated ∧
    (env.hasAccount = false →
      uploadData env pn2 fp2 d2 opt2 = some ([], Except.error FdpError.notAuthenticated) ∧
      downloadData env pn2 fp2 = ([], Except.error FdpError.notAuthenticated) ∧
      delete env pn2 fp2 = ([], Except.error FdpError.notAuthenticated) ∧
      share env pn2 fp2 = ([], Except.error FdpError.notAuthenticated)) := by
  refine ⟨rfl, ?_, ?_⟩
  · unfold saveShared
    repeat' split
    all_goals simp
  · intro hacc
    refine ⟨?_, ?_, ?_, ?_⟩
    · simp [uploadData, hacc]
    · simp [downloadData, hacc]
    · simp [delete, hacc]
    · simp [share, hacc]

/-- Witness for C9 at a concrete environment with no session. -/
theorem saveShared_no_session_assertion_witness :
    uploadData testEnvNoAuth "pod" "/dir/file" [1, 2] none =
      some ([], Except.error FdpError.notAuthenticated) ∧
    (saveShared testEnvNoAuth "pod" "/p" "r" none).2 ≠
      Except.error FdpError.notAuthenticated :=
  ⟨((saveShared_no_session_assertion testEnvNoAuth true "pod" "/p" "r" none
      "pod" "/dir/file" [1, 2] none).2.2 rfl).1,
   (saveShared_no_session_assertion testEnvNoAuth true "pod" "/p" "r" none
      "pod" "/dir/file" [1, 2] none).2.1⟩

/-- C3: saveShared rewrites pod name, file path, file name (the optional
rename when given, otherwise the original shared name) and pod address to
the importing pod, preserves fileSize, blocksReference and creationTime of
the shared metadata unchanged, performs no content-addressed store write (no
block re-upload), and its only remote effects are the directory registration
and the feed publish of the rewritten metadata signed with the importer
key. -/
theorem saveShared_upload_by_reference (env : Env) (podName parentPath reference : String)
    (rename : Option String) (info : PodInfo)
    (hpod : env.podNameOk podName = true) (href : env.encRefOk reference = true)
    (hlookup : env.podLookup podName = some info) :
    saveShared env podName parentPath reference rename =
      ([Event.fetchShareInfo reference, Event.getPodsList podName,
        Event.addEntry info.podWalletKey parentPath
          (rename.getD (env.sharedFileInfo reference).meta.fileName) true,
        Event.writeFeed
          (combine parentPath (rename.getD (env.sharedFileInfo reference).meta.fileName))
          (updateFileMetadata (rawFileMetadataToFileMetadata (env.sharedFileInfo reference).meta)
            podName parentPath (rename.getD (env.sharedFileInfo reference).meta.fileName)
            info.podAddress)
          info.podWalletKey],
        Except.ok (updateFileMetadata
          (rawFileMetadataToFileMetadata (env.sharedFileInfo reference).meta)
          podName parentPath (rename.getD (env.sharedFileInfo reference).meta.fileName)
          info.podAddress)) ∧
    (∀ m pn pp fn pa, (updateFileMetadata m pn pp fn pa).podName = pn ∧
      (updateFileMetadata m pn pp fn pa).filePath = pp ∧
      (updateFileMetadata m pn pp fn pa).fileName = fn ∧
      (updateFileMetadata m pn pp fn pa).podAddress = pa ∧
      (updateFileMetadata m pn pp fn pa).fileSize = m.fileSize ∧
      (updateFileMetadata m pn pp fn pa).blocksReference = m.blocksReference ∧
      (updateFileMetadata m pn pp fn pa).creationTime = m.creationTime) ∧
    (saveShared env podName parentPath reference rename).1.countP Event.isPut = 0 := by
  have hs : saveShared env podName parentPath reference rename =
      ([Event.fetchShareInfo reference, Event.getPodsList podName,
        Event.addEntry info.podWalletKey parentPath
          (rename.getD (env.sharedFileInfo reference).meta.fileName) true,
        Event.writeFeed
          (combine parentPath (rename.getD (env.sharedFileInfo reference).meta.fileName))
          (updateFileMetadata (rawFileMetadataToFileMetadata (env.sharedFileInfo reference).meta)
            podName parentPath (rename.getD (env.sharedFileInfo reference).meta.fileName)
            info.podAddress)
          info.podWalletKey],
        Except.ok (updateFileMetadata
          (rawFileMetadataToFileMetadata (env.sharedFileInfo reference).meta)
          podName parentPath (rename.getD (env.sharedFileInfo reference).meta.fileName)
          info.podAddress)) := by
    simp [saveShared, hpod, href, hlookup]
  refine ⟨hs, fun m pn pp fn pa => ⟨rfl, rfl, rfl, rfl, rfl, rfl, rfl⟩, ?_⟩
  rw [hs]
  simp [List.countP_cons, List.countP_nil, Event.isPut]

/-- Witness for C3 at a concrete environment. -/
theorem saveShared_upload_by_reference_witness :
    (saveShared testEnv "pod" "/p" "r" none).1.countP Event.isPut = 0 :=
  (saveShared_upload_by_reference testEnv "pod" "/p" "r" none
    { podAddress := "addr", podWalletKey := "key" } rfl rfl rfl).2.2
